import Mathlib

/- Verification of the asynchronous task execution core of the a2a_adapter
repository: the task record model and executor (src/a2a_adapter/core/lifecycle.py),
the event generator (generate_task_events), and the JSON-RPC codec
(src/a2a_adapter/core/rpc.py, src/a2a_adapter/api/task_routes.py).

Python values that can appear in JSON-RPC envelopes and task results are
modelled by the inductive `Val`; Python truthiness by `truthy`.  The
concurrency discipline of the source (asyncio, one executor task plus any
number of event-generator subscriptions per task, interleaving only at
explicit suspension points: lock acquisition, `yield`, `asyncio.sleep`) is
modelled by a small-step transition system `step` over `SysState`, with the
scheduler's choices (which coroutine runs next, how much time passes)
given as a list of `Action`s. -/

namespace A2A

/- A JSON-like Python value. -/
inductive Val where
  | vNull : Val
  | vBool : Bool → Val
  | vInt : Int → Val
  | vStr : String → Val
  | vList : List Val → Val
  | vDict : List (String × Val) → Val

/- Python truthiness: None, False, 0, "", [] and {} are falsy. -/
def truthy : Val → Bool
  | .vNull => false
  | .vBool b => b
  | .vInt n => n != 0
  | .vStr s => s != ""
  | .vList xs => !xs.isEmpty
  | .vDict xs => !xs.isEmpty

/- A JSON-RPC request id: `Union[str, int]` in card.py's models. -/
inductive ReqId where
  | str : String → ReqId
  | int : Int → ReqId

def reqIdVal : ReqId → Val
  | .str s => .vStr s
  | .int n => .vInt n

/- Python `d.get(k, default)` on a dict value (the source only calls it on
dicts; a non-dict argument would raise there, so the non-dict arm is never
exercised by the embedded code paths). -/
def dictGetD (d : Val) (k : String) (dflt : Val) : Val :=
  match d with
  | .vDict xs => match xs.lookup k with
    | some v => v
    | none => dflt
  | _ => dflt

def lookupField (raw : Val) (k : String) : Option Val :=
  match raw with
  | .vDict xs => xs.lookup k
  | _ => none

/- One server-sent-event frame as produced by rpc.format_sse_event: the event
type and the JSON-RPC envelope placed in the data field (the source
serializes the envelope with json.dumps; the serialization step is elided
and the structured value kept). -/
structure SSEEvent where
  event : String
  data : Val

/- The JSON-RPC envelope built by format_sse_event (rpc.py lines 136-155).
The failed branch reads data.get("error", "Unknown error") and wraps it in
JSONRPCErrorData whose dict(exclude_none=True) drops a None error field; the
other branch sets result = {"status": event_type} and adds a "data" key only
for a completed event whose payload is truthy. -/
def sse_payload (event_type : String) (request_id : ReqId) (data : Val) : Val :=
  if event_type == "failed" then
    let errVal := dictGetD data "error" (Val.vStr "Unknown error")
    let errorData : Val :=
      match errVal with
      | .vNull => .vDict []
      | v => .vDict [("error", v)]
    Val.vDict [("jsonrpc", .vStr "2.0"), ("id", reqIdVal request_id),
      ("error", Val.vDict [("code", .vInt (-32000)),
        ("message", .vStr "Task execution failed"),
        ("data", errorData)])]
  else
    let result : Val :=
      if event_type == "completed" && truthy data then
        .vDict [("status", .vStr event_type), ("data", data)]
      else
        .vDict [("status", .vStr event_type)]
    Val.vDict [("jsonrpc", .vStr "2.0"), ("id", reqIdVal request_id),
      ("result", result)]

def format_sse_event (event_type : String) (request_id : ReqId) (data : Val) :
    SSEEvent :=
  { event := event_type, data := sse_payload event_type request_id data }

/- The result object carried by an event's envelope. -/
def resultObject (e : SSEEvent) : Option Val :=
  lookupField e.data "result"

/-- C10: for a completed event, the result object carries a "data" field equal
to the task's result exactly when that result is truthy; for a falsy result
(None, False, 0, empty string/list/dict) the result object is exactly
the dictionary with the single entry status = "completed". -/
theorem completed_event_data_iff_truthy (rid : ReqId) (v : Val) :
    resultObject (format_sse_event "completed" rid v) =
      some (if truthy v then
              Val.vDict [("status", .vStr "completed"), ("data", v)]
            else
              Val.vDict [("status", .vStr "completed")]) := by
  cases h : truthy v <;>
    simp [resultObject, format_sse_event, sse_payload, lookupField, h, List.lookup]

/- The task record of lifecycle.py (the dict created at lines 39-48).  The
skill function and its argument are replaced by the outcome of evaluating
`fn(args)`: `Except.ok v` when the invocable returns `v`, `Except.error m`
when it raises an exception whose str() is `m`. -/
structure TaskRec where
  status : String
  request_id : ReqId
  fnOutcome : Except String Val
  result : Option Val
  error : Option String
  created_at : Nat
  last_update : Nat

/- Program counter of the background executor _execute_task: about to take the
lock and set the record running (lines 74-82), about to write the invocable's
outcome to the record (lines 85-100), or finished. -/
inductive ExecPC where
  | toRun : ExecPC
  | toFinish : ExecPC
  | done : ExecPC
deriving DecidableEq

/- Program counter of one generate_task_events subscription.  Each
constructor names the next atomic block (code between two suspension
points: lock acquisitions, yields, sleeps) the subscription will run. -/
inductive GenPC where
  | attach : GenPC
  | emitAccepted : GenPC
  | startupCheck : GenPC
  | startupHb : GenPC
  | startupTimeoutChk : GenPC
  | startupRead : GenPC
  | startupSleep : GenPC
  | afterStartup : GenPC
  | runCheck : GenPC
  | runHb : GenPC
  | runRead : GenPC
  | runSleep : GenPC
  | finalRead : GenPC
  | finalEmit : GenPC
  | done : GenPC
deriving DecidableEq

/- Local state of one generate_task_events subscription: its program counter,
the local variables request_id, task_status, last_heartbeat, timeout_start,
result and error of lifecycle.py lines 145-212, and the list of events
yielded so far, most recent first. -/
structure GenState where
  pc : GenPC
  ridSnap : ReqId
  task_status : String
  last_heartbeat : Nat
  timeout_start : Nat
  resultSnap : Option Val
  errorSnap : Option String
  revEvents : List SSEEvent

def heartbeat_interval : Nat := 10

def startup_timeout : Nat := 30

def timeoutMsg : String := "Task execution timed out waiting to start"

/- One atomic block of generate_task_events, returning the updated local
state together with the (possibly mutated) task record.  Only the startup
timeout branch (lines 168-174) writes to the record; every other block reads
it or only touches locals.  The source's "task_id in _tasks" membership
checks always succeed, because the module never removes an entry from
_tasks, so the record is modelled as always present. -/
def stepGen (clock : Nat) (task : TaskRec) (g : GenState) : GenState × TaskRec :=
  match g.pc with
  | .attach =>
      -- lines 145-154: initialize locals, read request_id and status under the lock
      ({ g with pc := .emitAccepted, ridSnap := task.request_id,
                task_status := task.status, last_heartbeat := clock }, task)
  | .emitAccepted =>
      -- lines 157-160: yield the accepted event, then timeout_start = time.time()
      ({ g with pc := .startupCheck,
                revEvents := format_sse_event "accepted" g.ridSnap (Val.vDict []) :: g.revEvents,
                timeout_start := clock }, task)
  | .startupCheck =>
      -- line 161: while task_status == "accepted"
      if g.task_status == "accepted" then
        ({ g with pc := .startupHb }, task)
      else
        ({ g with pc := .afterStartup }, task)
  | .startupHb =>
      -- lines 163-165: heartbeat if more than heartbeat_interval since the last one
      if clock > g.last_heartbeat + heartbeat_interval then
        ({ g with pc := .startupTimeoutChk,
                  revEvents := format_sse_event "heartbeat" g.ridSnap
                    (Val.vDict [("timestamp", Val.vInt (Int.ofNat clock))]) :: g.revEvents,
                  last_heartbeat := clock }, task)
      else
        ({ g with pc := .startupTimeoutChk }, task)
  | .startupTimeoutChk =>
      -- lines 168-174: on startup timeout force the record to failed and break
      if clock > g.timeout_start + startup_timeout then
        ({ g with pc := .afterStartup, task_status := "failed" },
         { task with status := "failed", error := some timeoutMsg })
      else
        ({ g with pc := .startupRead }, task)
  | .startupRead =>
      -- lines 177-181: re-read the status under the lock
      ({ g with pc := .startupSleep, task_status := task.status }, task)
  | .startupSleep =>
      -- line 183: await asyncio.sleep(0.1)
      ({ g with pc := .startupCheck }, task)
  | .afterStartup =>
      -- lines 186-187: emit running only if the task did not fail during startup
      if g.task_status == "running" then
        ({ g with pc := .runCheck,
                  revEvents := format_sse_event "running" g.ridSnap (Val.vDict []) :: g.revEvents },
         task)
      else
        ({ g with pc := .finalRead }, task)
  | .runCheck =>
      -- line 190: while task_status == "running"
      if g.task_status == "running" then
        ({ g with pc := .runHb }, task)
      else
        ({ g with pc := .finalRead }, task)
  | .runHb =>
      -- lines 192-194
      if clock > g.last_heartbeat + heartbeat_interval then
        ({ g with pc := .runRead,
                  revEvents := format_sse_event "heartbeat" g.ridSnap
                    (Val.vDict [("timestamp", Val.vInt (Int.ofNat clock))]) :: g.revEvents,
                  last_heartbeat := clock }, task)
      else
        ({ g with pc := .runRead }, task)
  | .runRead =>
      -- lines 197-201
      ({ g with pc := .runSleep, task_status := task.status }, task)
  | .runSleep =>
      -- line 203
      ({ g with pc := .runCheck }, task)
  | .finalRead =>
      -- lines 206-212: read result and error under the lock
      ({ g with pc := .finalEmit, resultSnap := task.result, errorSnap := task.error }, task)
  | .finalEmit =>
      -- lines 214-217: exactly one final event, chosen by the local snapshot
      if g.task_status == "completed" then
        ({ g with pc := .done,
                  revEvents := format_sse_event "completed" g.ridSnap
                    ((g.resultSnap).getD Val.vNull) :: g.revEvents }, task)
      else
        ({ g with pc := .done,
                  revEvents := format_sse_event "failed" g.ridSnap
                    (Val.vDict [("error", match g.errorSnap with
                                          | some e => Val.vStr e
                                          | none => Val.vNull)]) :: g.revEvents }, task)
  | .done => (g, task)

/- The whole system for one task: the clock, the shared record, the executor
and any number of event-stream subscriptions. -/
structure SysState where
  clock : Nat
  task : TaskRec
  exec : ExecPC
  gens : List GenState

/- A scheduling decision: let time pass, run the executor's next atomic
block, or run subscription i's next atomic block. -/
inductive Action where
  | tick : Nat → Action
  | execStep : Action
  | genStep : Nat → Action

/- One small step of the system.  The executor's two atomic blocks follow
_execute_task: set the record running (lines 74-82, no status check), then
write the outcome — result and completed on a normal return (lines 88-92),
error and failed on an exception (lines 94-100); neither write clears the
other field. -/
def step (s : SysState) (a : Action) : SysState :=
  match a with
  | .tick d => { s with clock := s.clock + d }
  | .execStep =>
      match s.exec with
      | .toRun =>
          { s with exec := .toFinish,
                   task := { s.task with status := "running", last_update := s.clock } }
      | .toFinish =>
          match s.task.fnOutcome with
          | .ok v =>
              { s with exec := .done,
                       task := { s.task with result := some v, status := "completed",
                                             last_update := s.clock } }
          | .error m =>
              { s with exec := .done,
                       task := { s.task with error := some m, status := "failed",
                                             last_update := s.clock } }
      | .done => s
  | .genStep i =>
      match s.gens.get? i with
      | none => s
      | some g =>
          { s with gens := s.gens.set i (stepGen s.clock s.task g).1,
                   task := (stepGen s.clock s.task g).2 }

def run (s : SysState) : List Action → SysState
  | [] => s
  | a :: acts => run (step s a) acts

/- A fresh subscription, before its first atomic block runs. -/
def initGen : GenState :=
  { pc := .attach, ridSnap := .str "", task_status := "", last_heartbeat := 0,
    timeout_start := 0, resultSnap := none, errorSnap := none, revEvents := [] }

/- The state right after create_task (lifecycle.py lines 31-53): the record is
inserted with status accepted and empty result and error, the executor is
scheduled but has not run, and n subscriptions are about to attach. -/
def initSys (rid : ReqId) (outcome : Except String Val) (n : Nat) : SysState :=
  { clock := 0,
    task := { status := "accepted", request_id := rid, fnOutcome := outcome,
              result := none, error := none, created_at := 0, last_update := 0 },
    exec := .toRun,
    gens := List.replicate n initGen }

/- The event types a subscription has emitted, in emission order. -/
def eventTypes (g : GenState) : List String :=
  (g.revEvents.reverse).map fun e => e.event

/- Subscription i is about to run the startup-timeout branch and the
timeout has expired, so running it will perform the timeout mutation
(lifecycle.py lines 168-174). -/
def firesTimeout (s : SysState) (i : Nat) : Bool :=
  match s.gens.get? i with
  | some g => (g.pc == GenPC.startupTimeoutChk) &&
      decide (s.clock > g.timeout_start + startup_timeout)
  | none => false

/- How many times the timeout mutation is performed along a schedule. -/
def mutationCount : SysState → List Action → Nat
  | _, [] => 0
  | s, a :: acts =>
      (match a with
       | .genStep i => if firesTimeout s i then 1 else 0
       | _ => 0) + mutationCount (step s a) acts

/- Concrete schedules used below.  `racePre` drives one subscription from
attach through the startup timeout while the scheduled executor has not yet
run its first block — exactly the situation the 30-second startup timeout
exists for; `raceFull` then lets the pending executor run. -/
def gstep0 : Action := .genStep 0

def gstep1 : Action := .genStep 1

def raceInit : SysState := initSys (.str "r") (.ok (.vStr "v")) 1

def racePre : List Action := [gstep0, gstep0, .tick 31, gstep0, gstep0, gstep0]

def raceFull : List Action := racePre ++ [.execStep, .execStep]

/-- C1: the claim states that no operation ever moves a record out of Failed.
It is violated by the code: after the startup timeout forces the record to
Failed (which the source contemplates whenever the executor has not started
within 30 s), the still-pending executor unconditionally sets the record to
running (lifecycle.py line 81, no status check) and then to completed —
Failed → Running → Completed. -/
theorem executor_resurrects_failed_task :
    (run raceInit racePre).task.status = "failed" ∧
    (run raceInit (racePre ++ [Action.execStep])).task.status = "running" ∧
    (run raceInit raceFull).task.status = "completed" :=
  ⟨rfl, rfl, rfl⟩

/-- C2: the claim states result and error are never both set.  Violated: after
the startup timeout writes error, the executor's completed transition (lines
88-92) writes result without clearing error, leaving both set. -/
theorem result_error_both_set_after_timeout_race :
    (run raceInit raceFull).task.result = some (Val.vStr "v") ∧
    (run raceInit raceFull).task.error = some timeoutMsg ∧
    (run raceInit raceFull).task.status = "completed" :=
  ⟨rfl, rfl, rfl⟩

/-- C5: the claim states a task whose invocable returns V reaches Completed
with result V and error unset.  Violated in the same race: the task does end
completed with result V, but the error field still holds the startup-timeout
message because no transition ever clears it. -/
theorem completed_with_timeout_error_set :
    (run raceInit raceFull).task.status = "completed" ∧
    (run raceInit raceFull).task.result = some (Val.vStr "v") ∧
    (run raceInit raceFull).task.error = some timeoutMsg :=
  ⟨rfl, rfl, rfl⟩

/- Two subscriptions, both parked in the startup loop when the timeout
expires: both still hold the stale snapshot "accepted" when they reach the
timeout check, so both perform the mutation. -/
def tmInit : SysState := initSys (.str "r") (.ok (.vStr "v")) 2

def tmActs : List Action :=
  [gstep0, gstep0, gstep1, gstep1, .tick 31, gstep0, gstep0, gstep0, gstep1, gstep1, gstep1]

/-- C4 counterexample: the claim states only the first subscriber to observe
the timeout condition performs the mutation.  In this schedule the timeout
mutation is performed twice: the second subscriber's last lock-protected
status read predates the first mutation, so its own timeout check still sees
the stale snapshot "accepted" and it mutates the already-Failed record
again. -/
theorem timeout_mutation_twice :
    mutationCount tmInit tmActs = 2 ∧
    ¬ mutationCount tmInit tmActs ≤ 1 ∧
    (run tmInit (tmActs.take 8)).task.status = "failed" :=
  ⟨rfl, by decide, rfl⟩

/- A task whose invocable raises an exception with an empty message:
str(e) == "" and the executor stores exactly that. -/
def emptyRaiseInit : SysState := initSys (.str "r") (.error "") 0

/-- C6 counterexample: the claim states the error string is non-empty, but
_execute_task line 98 stores str(e) verbatim, which is empty for an
exception constructed with no message; the record ends Failed with error ""
and no non-empty error string exists. -/
theorem failed_error_may_be_empty :
    (run emptyRaiseInit [Action.execStep, Action.execStep]).task.status = "failed" ∧
    (run emptyRaiseInit [Action.execStep, Action.execStep]).task.error = some "" ∧
    ¬ ∃ e, (run emptyRaiseInit [Action.execStep, Action.execStep]).task.error = some e ∧
      e ≠ "" :=
  ⟨rfl, rfl, fun ⟨_, he, hne⟩ => hne (Option.some.inj he).symm⟩

/- A subscription that attaches only after the executor has already driven
the record to Completed. -/
def lateInit : SysState := initSys (.str "r") (.ok (.vStr "h")) 1

def lateActs : List Action :=
  [.execStep, .execStep, gstep0, gstep0, gstep0, gstep0, gstep0, gstep0]

/-- C9 counterexample: the claim states a subscriber attaching after the task
left Accepted does not receive events for phases already past (may miss
accepted).  In the code the accepted event is yielded unconditionally
(lifecycle.py line 157) before any status check, so a subscription attaching
to an already-completed task still receives accepted first. -/
theorem late_subscriber_receives_accepted :
    (run lateInit [Action.execStep, Action.execStep]).task.status = "completed" ∧
    (((run lateInit lateActs).gens.get? 0).getD initGen).pc = GenPC.done ∧
    eventTypes (((run lateInit lateActs).gens.get? 0).getD initGen) =
      ["accepted", "completed"] :=
  ⟨rfl, rfl, rfl⟩

lemma get?_set_of_get? {α : Type} :
    ∀ (l : List α) (i : Nat) (g a : α), l.get? i = some g →
      (l.set i a).get? i = some a
  | [], i, _, _, h => by simp at h
  | _ :: _, 0, _, _, _ => rfl
  | _ :: t, i + 1, g, a, h => by
      simpa [List.set, List.get?] using get?_set_of_get? t i g a h

/-- C4 (amended): every performance of the startup-timeout mutation — by
whichever subscription, first or later — writes the same values, status
"failed" and the exact error string, and makes the performing subscription
leave the startup poll loop; so repeated performances are idempotent in
effect even though more than one subscriber may perform the mutation. -/
theorem timeout_mutation_idempotent_effect (s : SysState) (i : Nat)
    (hf : firesTimeout s i = true) :
    (step s (.genStep i)).task.status = "failed" ∧
    (step s (.genStep i)).task.error = some timeoutMsg ∧
    (((step s (.genStep i)).gens.get? i).getD initGen).pc = GenPC.afterStartup := by
  unfold firesTimeout at hf
  cases hg : s.gens.get? i with
  | none => rw [hg] at hf; exact absurd hf (by simp)
  | some g =>
      rw [hg] at hf
      rw [Bool.and_eq_true, beq_iff_eq, decide_eq_true_eq] at hf
      obtain ⟨hpc, hclk⟩ := hf
      have hstep : step s (.genStep i) =
          { s with gens := s.gens.set i (stepGen s.clock s.task g).1,
                   task := (stepGen s.clock s.task g).2 } := by
        simp only [step, hg]
      have hgen : stepGen s.clock s.task g =
          ({ g with pc := .afterStartup, task_status := "failed" },
           { s.task with status := "failed", error := some timeoutMsg }) := by
        unfold stepGen; rw [hpc]; simp [hclk]
      rw [hstep, hgen]
      refine ⟨rfl, rfl, ?_⟩
      have := get?_set_of_get? s.gens i g
        ({ g with pc := GenPC.afterStartup, task_status := "failed" }) hg
      simp only [this]
      rfl

/-- C4 witness: a state in which a subscription is at its timeout check with
the timeout expired; running it performs the mutation with the stated
effect. -/
theorem timeout_mutation_idempotent_effect_witness :
    firesTimeout (run tmInit (tmActs.take 7)) 0 = true ∧
    ((step (run tmInit (tmActs.take 7)) (.genStep 0)).task.status = "failed" ∧
     (step (run tmInit (tmActs.take 7)) (.genStep 0)).task.error = some timeoutMsg ∧
     (((step (run tmInit (tmActs.take 7)) (.genStep 0)).gens.get? 0).getD initGen).pc =
       GenPC.afterStartup) :=
  ⟨rfl, timeout_mutation_idempotent_effect (run tmInit (tmActs.take 7)) 0 rfl⟩

/- How many executor blocks a schedule runs. -/
def countExec : List Action → Nat
  | [] => 0
  | .execStep :: acts => countExec acts + 1
  | _ :: acts => countExec acts

def execRank : ExecPC → Nat
  | .toRun => 0
  | .toFinish => 1
  | .done => 2

/- Invariant of a task with no subscriptions whose invocable raises msg:
result and error stay unset until the executor's terminal write, which
stores exactly msg and status failed. -/
def soloFailInv (msg : String) (s : SysState) : Prop :=
  s.gens = [] ∧ s.task.fnOutcome = Except.error msg ∧
  (match s.exec with
   | .toRun => s.task.result = none ∧ s.task.error = none
   | .toFinish => s.task.result = none ∧ s.task.error = none
   | .done => s.task.status = "failed" ∧ s.task.error = some msg ∧ s.task.result = none)

lemma soloFail_step (msg : String) (s : SysState) (a : Action)
    (h : soloFailInv msg s) : soloFailInv msg (step s a) := by
  obtain ⟨hg, hfn, hm⟩ := h
  cases a with
  | tick d => exact ⟨hg, hfn, hm⟩
  | execStep =>
      cases he : s.exec with
      | toRun =>
          rw [he] at hm
          simp only [step, he]
          exact ⟨hg, hfn, hm⟩
      | toFinish =>
          rw [he] at hm
          simp only [step, he, hfn]
          exact ⟨hg, rfl, ⟨rfl, rfl, hm.1⟩⟩
      | done =>
          simp only [step, he]
          exact ⟨hg, hfn, hm⟩
  | genStep i =>
      have : s.gens.get? i = none := by rw [hg]; simp
      simp only [step, this]
      exact ⟨hg, hfn, hm⟩

lemma soloFail_run (msg : String) :
    ∀ (acts : List Action) (s : SysState), soloFailInv msg s →
      soloFailInv msg (run s acts) ∧
      (2 ≤ execRank s.exec + countExec acts → (run s acts).exec = ExecPC.done) := by
  intro acts
  induction acts with
  | nil =>
      intro s h
      refine ⟨h, fun h2 => ?_⟩
      cases he : s.exec with
      | toRun => rw [he] at h2; simp [execRank, countExec] at h2
      | toFinish => rw [he] at h2; simp [execRank, countExec] at h2
      | done => exact he
  | cons a acts ih =>
      intro s h
      have hstep := soloFail_step msg s a h
      have := ih (step s a) hstep
      refine ⟨this.1, fun h2 => this.2 ?_⟩
      cases a with
      | tick d => simpa [step, countExec] using h2
      | genStep i =>
          have hnone : s.gens.get? i = none := by rw [h.1]; simp
          simp only [step, hnone]
          simpa [countExec] using h2
      | execStep =>
          cases he : s.exec with
          | toRun =>
              have : (step s .execStep).exec = ExecPC.toFinish := by
                simp [step, he]
              rw [this]
              rw [he] at h2
              simp [execRank, countExec] at h2 ⊢
              omega
          | toFinish =>
              have : (step s .execStep).exec = ExecPC.done := by
                simp [step, he, h.2.1]
              rw [this]
              simp [execRank]
          | done =>
              have : step s .execStep = s := by simp [step, he]
              rw [this, he]
              simp [execRank]

/-- C6 (amended): a task whose invocable raises an exception with message
msg — with no subscriptions racing it — ends Failed with error exactly msg
(possibly the empty string) and result unset, once the executor's two blocks
have been scheduled; the executor absorbs the exception rather than letting
it escape. -/
theorem raising_invocable_reaches_failed (rid : ReqId) (msg : String)
    (acts : List Action) (h2 : 2 ≤ countExec acts) :
    (run (initSys rid (.error msg) 0) acts).task.status = "failed" ∧
    (run (initSys rid (.error msg) 0) acts).task.error = some msg ∧
    (run (initSys rid (.error msg) 0) acts).task.result = none := by
  have h0 : soloFailInv msg (initSys rid (.error msg) 0) :=
    ⟨rfl, rfl, rfl, rfl⟩
  have hmain := soloFail_run msg acts _ h0
  have hdone : (run (initSys rid (.error msg) 0) acts).exec = ExecPC.done := by
    refine hmain.2 ?_
    simpa [initSys, execRank] using h2
  obtain ⟨-, -, hm⟩ := hmain.1
  rw [hdone] at hm
  exact hm

/-- C6 witness: a concrete raising invocable run to completion under the
amended statement. -/
theorem raising_invocable_reaches_failed_witness :
    2 ≤ countExec [Action.execStep, Action.execStep] ∧
    ((run (initSys (.str "r") (.error "boom") 0) [Action.execStep, Action.execStep]).task.status = "failed" ∧
     (run (initSys (.str "r") (.error "boom") 0) [Action.execStep, Action.execStep]).task.error = some "boom" ∧
     (run (initSys (.str "r") (.error "boom") 0) [Action.execStep, Action.execStep]).task.result = none) :=
  ⟨by decide,
   raising_invocable_reaches_failed (.str "r") "boom" [Action.execStep, Action.execStep]
     (by decide)⟩

/- The regular pattern of 8 of the spec, accepted, heartbeat*,
(running, heartbeat*)?, (completed|failed), as a recursive-descent Bool
function over the emitted event types in order. -/
def isTerminal (e : String) : Bool :=
  e == "completed" || e == "failed"

def patAfterRunning : List String → Bool
  | [] => false
  | a :: t => if a == "heartbeat" then patAfterRunning t else t.isEmpty && isTerminal a

def patAfterAccepted : List String → Bool
  | [] => false
  | a :: t =>
      if a == "heartbeat" then patAfterAccepted t
      else if a == "running" then patAfterRunning t
      else t.isEmpty && isTerminal a

def eventPattern : List String → Bool
  | [] => false
  | a :: t => a == "accepted" && patAfterAccepted t

/- Shapes of a subscription's emitted-so-far list, most recent event first:
heartbeats over a single accepted; heartbeats and one running over that; a
full closed stream with a single terminal event in front. -/
def revPre : List String → Bool
  | [] => false
  | a :: t =>
      if a == "accepted" then t.isEmpty
      else if a == "heartbeat" then revPre t
      else false

def revRun : List String → Bool
  | [] => false
  | a :: t =>
      if a == "running" then revPre t
      else if a == "heartbeat" then revRun t
      else false

def revFull : List String → Bool
  | [] => false
  | a :: t => isTerminal a && (revPre t || revRun t)

def evTypesRev (g : GenState) : List String :=
  g.revEvents.map fun e => e.event

/- The per-subscription invariant tying the program counter to the shape of
what has been emitted so far. -/
def genInv (g : GenState) : Prop :=
  match g.pc with
  | .attach => g.revEvents = []
  | .emitAccepted => g.revEvents = []
  | .startupCheck | .startupHb | .startupTimeoutChk | .startupRead
  | .startupSleep | .afterStartup => revPre (evTypesRev g) = true
  | .runCheck | .runHb | .runRead | .runSleep => revRun (evTypesRev g) = true
  | .finalRead | .finalEmit => revPre (evTypesRev g) = true ∨ revRun (evTypesRev g) = true
  | .done => revFull (evTypesRev g) = true

lemma stepGen_inv (clock : Nat) (task : TaskRec) (g : GenState)
    (h : genInv g) : genInv (stepGen clock task g).1 := by
  cases hpc : g.pc with
  | attach =>
      rw [genInv, hpc] at h
      simp only [stepGen, hpc]
      rw [genInv]
      exact h
  | emitAccepted =>
      rw [genInv, hpc] at h
      simp only [stepGen, hpc]
      rw [genInv]
      simp [evTypesRev, h, format_sse_event, revPre]
  | startupCheck =>
      rw [genInv, hpc] at h
      simp only [stepGen, hpc]
      split <;> (rw [genInv]; exact h)
  | startupHb =>
      rw [genInv, hpc] at h
      simp only [stepGen, hpc]
      split
      · rw [genInv]
        simpa [evTypesRev, format_sse_event, revPre] using h
      · rw [genInv]; exact h
  | startupTimeoutChk =>
      rw [genInv, hpc] at h
      simp only [stepGen, hpc]
      split <;> (rw [genInv]; exact h)
  | startupRead =>
      rw [genInv, hpc] at h
      simp only [stepGen, hpc]
      rw [genInv]; exact h
  | startupSleep =>
      rw [genInv, hpc] at h
      simp only [stepGen, hpc]
      rw [genInv]; exact h
  | afterStartup =>
      rw [genInv, hpc] at h
      simp only [stepGen, hpc]
      split
      · rw [genInv]
        simpa [evTypesRev, format_sse_event, revRun] using h
      · rw [genInv]; exact Or.inl h
  | runCheck =>
      rw [genInv, hpc] at h
      simp only [stepGen, hpc]
      split
      · rw [genInv]; exact h
      · rw [genInv]; exact Or.inr h
  | runHb =>
      rw [genInv, hpc] at h
      simp only [stepGen, hpc]
      split
      · rw [genInv]
        simpa [evTypesRev, format_sse_event, revRun] using h
      · rw [genInv]; exact h
  | runRead =>
      rw [genInv, hpc] at h
      simp only [stepGen, hpc]
      rw [genInv]; exact h
  | runSleep =>
      rw [genInv, hpc] at h
      simp only [stepGen, hpc]
      rw [genInv]; exact h
  | finalRead =>
      rw [genInv, hpc] at h
      simp only [stepGen, hpc]
      rw [genInv]; exact h
  | finalEmit =>
      rw [genInv, hpc] at h
      simp only [stepGen, hpc]
      split
      · rw [genInv]
        simp [evTypesRev, format_sse_event, revFull, isTerminal]
        simpa [evTypesRev] using h
      · rw [genInv]
        simp [evTypesRev, format_sse_event, revFull, isTerminal]
        simpa [evTypesRev] using h
  | done =>
      rw [genInv, hpc] at h
      simp only [stepGen, hpc]
      rw [genInv, hpc]
      exact h

lemma step_inv (s : SysState) (a : Action)
    (h : ∀ g ∈ s.gens, genInv g) : ∀ g ∈ (step s a).gens, genInv g := by
  cases a with
  | tick d => exact h
  | execStep =>
      intro g hg
      have : (step s .execStep).gens = s.gens := by
        cases he : s.exec with
        | toRun => simp [step, he]
        | toFinish =>
            cases ho : s.task.fnOutcome with
            | ok v => simp [step, he, ho]
            | error m => simp [step, he, ho]
        | done => simp [step, he]
      rw [this] at hg
      exact h g hg
  | genStep i =>
      intro g hg
      cases hgi : s.gens.get? i with
      | none =>
          simp only [step, hgi] at hg
          exact h g hg
      | some g0 =>
          simp only [step, hgi] at hg
          rcases List.mem_or_eq_of_mem_set hg with hmem | heq
          · exact h g hmem
          · subst heq
            exact stepGen_inv s.clock s.task g0 (h g0 (List.get?_mem hgi))

lemma run_inv : ∀ (acts : List Action) (s : SysState),
    (∀ g ∈ s.gens, genInv g) → ∀ g ∈ (run s acts).gens, genInv g := by
  intro acts
  induction acts with
  | nil => intro s h; exact h
  | cons a acts ih => intro s h; exact ih (step s a) (step_inv s a h)

/- Converting the reversed shapes to the forward pattern. -/
lemma revPre_rev : ∀ (t : List String), revPre t = true →
    ∀ suffix, patAfterAccepted suffix = true →
      eventPattern (t.reverse ++ suffix) = true := by
  intro t
  induction t with
  | nil => simp [revPre]
  | cons a t ih =>
      intro h suffix hs
      by_cases ha : a = "accepted"
      · subst ha
        rw [revPre] at h
        simp only [beq_self_eq_true, if_true] at h
        have ht : t = [] := by simpa using h
        subst ht
        simpa [eventPattern] using hs
      · by_cases hb : a = "heartbeat"
        · subst hb
          rw [revPre] at h
          simp only [show (("heartbeat" : String) == "accepted") = false by decide,
            beq_self_eq_true, if_true, if_false] at h
          have := ih h ("heartbeat" :: suffix) (by simpa [patAfterAccepted] using hs)
          simpa [List.append_assoc] using this
        · rw [revPre] at h
          simp [show (a == "accepted") = false by simpa using ha,
            show (a == "heartbeat") = false by simpa using hb] at h

lemma revRun_rev : ∀ (t : List String), revRun t = true →
    ∀ suffix, patAfterRunning suffix = true →
      eventPattern (t.reverse ++ suffix) = true := by
  intro t
  induction t with
  | nil => simp [revRun]
  | cons a t ih =>
      intro h suffix hs
      by_cases ha : a = "running"
      · subst ha
        rw [revRun] at h
        simp only [beq_self_eq_true, if_true] at h
        have := revPre_rev t h ("running" :: suffix)
          (by simpa [patAfterAccepted] using hs)
        simpa [List.append_assoc] using this
      · by_cases hb : a = "heartbeat"
        · subst hb
          rw [revRun] at h
          simp only [show (("heartbeat" : String) == "running") = false by decide,
            beq_self_eq_true, if_true, if_false] at h
          have := ih h ("heartbeat" :: suffix) (by simpa [patAfterRunning] using hs)
          simpa [List.append_assoc] using this
        · rw [revRun] at h
          simp [show (a == "running") = false by simpa using ha,
            show (a == "heartbeat") = false by simpa using hb] at h

lemma revFull_rev (l : List String) (h : revFull l = true) :
    eventPattern l.reverse = true := by
  cases l with
  | nil => simp [revFull] at h
  | cons a t =>
      rw [revFull] at h
      rw [Bool.and_eq_true, Bool.or_eq_true] at h
      obtain ⟨hterm, hshape⟩ := h
      have hterm' : a = "completed" ∨ a = "failed" := by
        rw [isTerminal, Bool.or_eq_true, beq_iff_eq, beq_iff_eq] at hterm
        exact hterm
      have hpa : patAfterAccepted [a] = true := by
        rcases hterm' with h | h <;> subst h <;> decide
      have hpr : patAfterRunning [a] = true := by
        rcases hterm' with h | h <;> subst h <;> decide
      rw [List.reverse_cons]
      rcases hshape with h | h
      · exact revPre_rev t h [a] hpa
      · exact revRun_rev t h [a] hpr

lemma eventTypes_eq_rev (g : GenState) :
    eventTypes g = (evTypesRev g).reverse := by
  simp [eventTypes, evTypesRev, List.map_reverse]

/-- C3: for every schedule (any interleaving of the executor, time and any
number of subscriptions) of a freshly created task, every subscription whose
stream has closed emitted an event sequence matching
accepted, heartbeat*, (running, heartbeat*)?, (completed|failed): it begins
with accepted, contains exactly one terminal event, the terminal event is
last, and no heartbeat follows it. -/
theorem event_sequence_matches_pattern (rid : ReqId) (outcome : Except String Val)
    (n : Nat) (acts : List Action) (i : Nat) (g : GenState)
    (hg : (run (initSys rid outcome n) acts).gens.get? i = some g)
    (hdone : g.pc = GenPC.done) :
    eventPattern (eventTypes g) = true := by
  have hinit : ∀ g0 ∈ (initSys rid outcome n).gens, genInv g0 := by
    intro g0 hg0
    have : g0 = initGen := by
      simpa [initSys] using List.eq_of_mem_replicate hg0
    subst this
    rw [genInv]
    rfl
  have hinv := run_inv acts (initSys rid outcome n) hinit g (List.get?_mem hg)
  rw [genInv, hdone] at hinv
  rw [eventTypes_eq_rev]
  exact revFull_rev _ hinv

/-- C3 witness: a concrete finished subscription with event sequence
accepted, completed. -/
theorem event_sequence_matches_pattern_witness :
    ∃ g, (run (initSys (.str "r") (.ok (.vStr "h")) 1) lateActs).gens.get? 0 = some g ∧
      g.pc = GenPC.done ∧ eventPattern (eventTypes g) = true :=
  ⟨(((run (initSys (.str "r") (.ok (.vStr "h")) 1) lateActs).gens.get? 0).getD initGen),
   rfl, rfl,
   event_sequence_matches_pattern (.str "r") (.ok (.vStr "h")) 1 lateActs 0 _ rfl rfl⟩

/- Phase of a single subscription that attaches while the record already sits
in terminal status σ: it synthesizes accepted, skips both poll loops and
emits the terminal event matching its snapshot. -/
def latePhase (σ : String) (g : GenState) : Prop :=
  match g.pc with
  | .attach => g.revEvents = []
  | .emitAccepted => g.revEvents = [] ∧ g.task_status = σ
  | .startupCheck => evTypesRev g = ["accepted"] ∧ g.task_status = σ
  | .afterStartup => evTypesRev g = ["accepted"] ∧ g.task_status = σ
  | .finalRead => evTypesRev g = ["accepted"] ∧ g.task_status = σ
  | .finalEmit => evTypesRev g = ["accepted"] ∧ g.task_status = σ
  | .done => evTypesRev g =
      [if σ == "completed" then "completed" else "failed", "accepted"]
  | _ => False

def lateSysInv (σ : String) (s : SysState) : Prop :=
  s.exec = ExecPC.done ∧ s.task.status = σ ∧
  ∃ g, s.gens = [g] ∧ latePhase σ g

lemma late_step (σ : String) (hσ : σ = "completed" ∨ σ = "failed")
    (s : SysState) (a : Action) (h : lateSysInv σ s) : lateSysInv σ (step s a) := by
  obtain ⟨he, hst, g, hgens, hph⟩ := h
  have hna : (σ == "accepted") = false := by
    rcases hσ with h | h <;> subst h <;> decide
  have hnr : (σ == "running") = false := by
    rcases hσ with h | h <;> subst h <;> decide
  cases a with
  | tick d => exact ⟨he, hst, g, hgens, hph⟩
  | execStep =>
      have hs : step s .execStep = s := by simp [step, he]
      rw [hs]
      exact ⟨he, hst, g, hgens, hph⟩
  | genStep i =>
      cases i with
      | succ j =>
          have hn : s.gens.get? (j + 1) = none := by rw [hgens]; rfl
          simp only [step, hn]
          exact ⟨he, hst, g, hgens, hph⟩
      | zero =>
          have hg0 : s.gens.get? 0 = some g := by rw [hgens]; rfl
          simp only [step, hg0]
          cases hpc : g.pc with
          | attach =>
              rw [latePhase, hpc] at hph
              simp only [stepGen, hpc]
              refine ⟨he, hst, _, by rw [hgens]; rfl, ?_⟩
              rw [latePhase]
              exact ⟨hph, hst⟩
          | emitAccepted =>
              rw [latePhase, hpc] at hph
              simp only [stepGen, hpc]
              refine ⟨he, hst, _, by rw [hgens]; rfl, ?_⟩
              rw [latePhase]
              refine ⟨?_, hph.2⟩
              simp [evTypesRev, format_sse_event, hph.1]
          | startupCheck =>
              rw [latePhase, hpc] at hph
              simp only [stepGen, hpc, hph.2, hna, Bool.false_eq_true, if_false]
              refine ⟨he, hst, _, by rw [hgens]; rfl, ?_⟩
              rw [latePhase]
              exact ⟨hph.1, rfl⟩
          | afterStartup =>
              rw [latePhase, hpc] at hph
              simp only [stepGen, hpc, hph.2, hnr, Bool.false_eq_true, if_false]
              refine ⟨he, hst, _, by rw [hgens]; rfl, ?_⟩
              rw [latePhase]
              exact ⟨hph.1, rfl⟩
          | finalRead =>
              rw [latePhase, hpc] at hph
              simp only [stepGen, hpc]
              refine ⟨he, hst, _, by rw [hgens]; rfl, ?_⟩
              rw [latePhase]
              exact ⟨hph.1, hph.2⟩
          | finalEmit =>
              rw [latePhase, hpc] at hph
              simp only [stepGen, hpc, hph.2]
              rcases hσ with hc | hf
              · subst hc
                simp only [show (("completed" : String) == "completed") = true by decide,
                  if_true]
                refine ⟨he, hst, _, by rw [hgens]; rfl, ?_⟩
                rw [latePhase]
                simpa [evTypesRev, format_sse_event] using hph.1
              · subst hf
                simp only [show (("failed" : String) == "completed") = false by decide,
                  Bool.false_eq_true, if_false]
                refine ⟨he, hst, _, by rw [hgens]; rfl, ?_⟩
                rw [latePhase]
                simpa [evTypesRev, format_sse_event] using hph.1
          | done =>
              rw [latePhase, hpc] at hph
              simp only [stepGen, hpc]
              refine ⟨he, hst, g, by rw [hgens]; rfl, ?_⟩
              rw [latePhase, hpc]
              exact hph
          | startupHb => rw [latePhase, hpc] at hph; exact hph.elim
          | startupTimeoutChk => rw [latePhase, hpc] at hph; exact hph.elim
          | startupRead => rw [latePhase, hpc] at hph; exact hph.elim
          | startupSleep => rw [latePhase, hpc] at hph; exact hph.elim
          | runCheck => rw [latePhase, hpc] at hph; exact hph.elim
          | runHb => rw [latePhase, hpc] at hph; exact hph.elim
          | runRead => rw [latePhase, hpc] at hph; exact hph.elim
          | runSleep => rw [latePhase, hpc] at hph; exact hph.elim

lemma late_run (σ : String) (hσ : σ = "completed" ∨ σ = "failed") :
    ∀ (acts : List Action) (s : SysState),
      lateSysInv σ s → lateSysInv σ (run s acts) := by
  intro acts
  induction acts with
  | nil => intro s h; exact h
  | cons a acts ih => intro s h; exact ih (step s a) (late_step σ hσ s a h)

/-- C9 (amended): a subscription that attaches after the record already
reached a terminal state does not observe only the remaining suffix: it
always receives a synthesized accepted event first — despite that phase
being past — followed by the terminal event matching the status it
observed; it misses only the running event. -/
theorem late_subscriber_terminal_events (s : SysState) (acts : List Action)
    (g : GenState) (he : s.exec = ExecPC.done)
    (hterm : s.task.status = "completed" ∨ s.task.status = "failed")
    (hgens : s.gens = [initGen])
    (hg : (run s acts).gens.get? 0 = some g)
    (hdone : g.pc = GenPC.done) :
    eventTypes g =
      ["accepted",
       if s.task.status == "completed" then "completed" else "failed"] := by
  have h0 : lateSysInv s.task.status s :=
    ⟨he, rfl, initGen, hgens, by rw [latePhase]; rfl⟩
  have hfin := late_run s.task.status hterm acts s h0
  obtain ⟨-, -, g', hg', hph⟩ := hfin
  have hgg : g' = g := by
    rw [hg'] at hg
    exact Option.some.inj hg
  subst hgg
  rw [latePhase, hdone] at hph
  rw [eventTypes_eq_rev, hph]
  rfl

/-- C9 witness: a subscription attaching after the executor completed the
task emits exactly accepted then completed. -/
theorem late_subscriber_terminal_events_witness :
    (run lateInit [Action.execStep, Action.execStep]).exec = ExecPC.done ∧
    (run lateInit [Action.execStep, Action.execStep]).task.status = "completed" ∧
    eventTypes
      (((run (run lateInit [Action.execStep, Action.execStep])
          [gstep0, gstep0, gstep0, gstep0, gstep0, gstep0]).gens.get? 0).getD initGen) =
      ["accepted", "completed"] :=
  ⟨rfl, rfl,
   late_subscriber_terminal_events (run lateInit [Action.execStep, Action.execStep])
     [gstep0, gstep0, gstep0, gstep0, gstep0, gstep0] _ rfl (Or.inl rfl) rfl rfl rfl⟩

/- The validated JSONRPCRequest of card.py lines 59-69: jsonrpc must be the
literal "2.0" (its default when the field is absent), id a string or
integer, method a string, and params an object whose agentSkill is a string
and whose input is a string or an object (Union[str, Dict, TaskInput]).
Precise coercion behaviour of the validation library on other input shapes
is not modelled; any shape the model rejects raises a ValidationError in the
source. -/
structure ParsedParams where
  agentSkill : String
  input : Val

structure ParsedReq where
  id : ReqId
  method : String
  params : ParsedParams

def asReqId : Val → Option ReqId
  | .vStr s => some (.str s)
  | .vInt n => some (.int n)
  | _ => none

def validInput : Val → Bool
  | .vStr _ => true
  | .vDict _ => true
  | _ => false

def parse_JSONRPCRequest (raw : Val) : Option ParsedReq :=
  match raw with
  | .vDict _ =>
      let okVersion :=
        match lookupField raw "jsonrpc" with
        | none => true
        | some (.vStr s) => s == "2.0"
        | some _ => false
      if okVersion then
        match lookupField raw "id" with
        | none => none
        | some idv =>
            match asReqId idv with
            | none => none
            | some rid =>
                match lookupField raw "method" with
                | some (.vStr m) =>
                    match lookupField raw "params" with
                    | some p =>
                        match lookupField p "agentSkill", lookupField p "input" with
                        | some (.vStr sk), some inp =>
                            if validInput inp then
                              some { id := rid, method := m,
                                     params := { agentSkill := sk, input := inp } }
                            else none
                        | _, _ => none
                    | none => none
                | _ => none
      else none
  | _ => none

/- data.get("id", "") of task_routes.py lines 69 and 73, applied to the
entries of a dict body.  The source evaluates this expression inside the
except handlers; when the parsed body is not a dict the expression itself
raises AttributeError, so this function takes the dict's field list and is
only ever applied on the dict-body paths (the non-dict paths are modelled by
HandlerOutcome.crashes below). -/
def rawId (fields : List (String × Val)) : Val :=
  match fields.lookup "id" with
  | some v => v
  | none => .vStr ""

/- A JSON-RPC error envelope as serialized by JSONRPCResponse.dict
(exclude_none=True); the data field of the error object is kept abstract as
an optional value. -/
def errBody (idv : Val) (code : Int) (message : String) (dataField : Option Val) : Val :=
  Val.vDict
    ([("jsonrpc", Val.vStr "2.0"), ("id", idv)] ++
     [("error", Val.vDict
        ([("code", Val.vInt code), ("message", Val.vStr message)] ++
         (match dataField with
          | some d => [("data", d)]
          | none => [])))])

structure HttpResponse where
  status_code : Nat
  body : Val

structure SendOutcome where
  response : HttpResponse
  createdTask : Option String

/- What the route produces: an HTTP response built by the handler, or a
crash of the handler itself — an exception escaping the route function (the
application installs no exception handlers), which the server surfaces as a
plain 500 with no RPC envelope. -/
inductive HandlerOutcome where
  | responds : SendOutcome → HandlerOutcome
  | crashes : HandlerOutcome

/- The code of the error object in a response body, when there is one. -/
def respErrorCode (body : Val) : Option Int :=
  match lookupField body "error" with
  | some errObj =>
      match lookupField errObj "code" with
      | some (.vInt c) => some c
      | _ => none
  | _ => none

/- The send_task handler of task_routes.py lines 33-77 on a dict JSON body.
skills models the agent_functions list with their _a2a_skill markers (first
match wins, as in the generator expression at lines 53-56); freshId the uuid
create_task would allocate.  A ValidationError from parsing is caught by the
generic handler (lines 70-77) and surfaced as -32603 "Internal error"; a
method other than tasks/send raises JSONRPCInvalidRequest, caught at lines
67-69 and surfaced with its code -32600; an unknown skill is surfaced with
-32002; otherwise create_task runs and a 202 envelope with taskId and status
accepted is returned. -/
def send_task_dict (skills : List (String × Except String Val)) (freshId : String)
    (fields : List (String × Val)) : HandlerOutcome :=
  match parse_JSONRPCRequest (Val.vDict fields) with
  | none =>
      .responds
        { response :=
            { status_code := 200,
              body := errBody (rawId fields) (-32603) "Internal error"
                (some (Val.vDict [("error", Val.vStr "ValidationError")])) },
          createdTask := none }
  | some req =>
      if req.method != "tasks/send" then
        .responds
          { response :=
              { status_code := 200,
                body := errBody (rawId fields) (-32600) "Method must be 'tasks/send'"
                  (some (Val.vDict [("error", Val.vStr "Method must be 'tasks/send'")])) },
            createdTask := none }
      else
        match skills.lookup req.params.agentSkill with
        | none =>
            .responds
              { response :=
                  { status_code := 200,
                    body := errBody (rawId fields) (-32002)
                      ("Skill '" ++ req.params.agentSkill ++ "' not found")
                      (some (Val.vDict [("error",
                        Val.vStr ("Skill '" ++ req.params.agentSkill ++ "' not found"))])) },
                createdTask := none }
        | some _ =>
            .responds
              { response :=
                  { status_code := 202,
                    body := Val.vDict
                      [("jsonrpc", Val.vStr "2.0"), ("id", reqIdVal req.id),
                       ("result", Val.vDict
                          [("taskId", Val.vStr freshId),
                           ("status", Val.vStr "accepted")])] },
                createdTask := some freshId }

/- The full route on a parsed JSON body.  For a non-dict body (list, string,
number, bool, null) parse_obj raises ValidationError and the generic except
branch then evaluates data.get("id", "") on the non-dict, which itself
raises AttributeError: the handler crashes and no RPC envelope is produced.
(A body that is not valid JSON at all makes request.json() raise before
`data` exists, taking the id-"" branch; that path has no parsed value and is
outside this embedding, which starts from the decoded JSON.) -/
def send_task (skills : List (String × Except String Val)) (freshId : String)
    (raw : Val) : HandlerOutcome :=
  match raw with
  | .vDict fields => send_task_dict skills freshId fields
  | _ => .crashes

/- The error code of the RPC envelope an outcome carries, if any. -/
def errorCodeOf (h : HandlerOutcome) : Option Int :=
  match h with
  | .responds o => respErrorCode o.response.body
  | .crashes => none

/- The task id an outcome created, if any (a crashed handler never reached
create_task). -/
def createdTaskOf : HandlerOutcome → Option String
  | .responds o => o.createdTask
  | .crashes => none

/- A request that is well-formed except for its protocol version. -/
def wrongVersionRaw : Val :=
  Val.vDict
    [("jsonrpc", Val.vStr "1.0"), ("id", Val.vStr "x"),
     ("method", Val.vStr "tasks/send"),
     ("params", Val.vDict
        [("agentSkill", Val.vStr "echo"), ("input", Val.vStr "hi")])]

def echoSkills : List (String × Except String Val) :=
  [("echo", Except.ok (Val.vStr "hi"))]

/- A well-formed request whose method is not tasks/send. -/
def wrongMethodRaw : Val :=
  Val.vDict
    [("jsonrpc", Val.vStr "2.0"), ("id", Val.vStr "y"),
     ("method", Val.vStr "skills/search"),
     ("params", Val.vDict
        [("agentSkill", Val.vStr "echo"), ("input", Val.vStr "hi")])]

/- A JSON body that is valid JSON but not an object. -/
def nonDictRaw : Val := Val.vList []

def isDictVal : Val → Bool
  | .vDict _ => true
  | _ => false

/-- C7 counterexample: the claim states a malformed envelope or wrong
protocol version yields an RPC error envelope with code -32600.  In the code
the validation failure raised by parse_obj is not a JSONRPCException, so a
dict body with a wrong version falls to the generic handler and is surfaced
as -32603 Internal error; and for a non-dict body the generic handler itself
raises AttributeError at data.get("id", ""), so no RPC error envelope is
produced at all.  No task is created in either case; only the method
mismatch path produces -32600. -/
theorem wrong_version_gives_internal_error :
    errorCodeOf (send_task echoSkills "tid" wrongVersionRaw) = some (-32603) ∧
    ¬ errorCodeOf (send_task echoSkills "tid" wrongVersionRaw) = some (-32600) ∧
    createdTaskOf (send_task echoSkills "tid" wrongVersionRaw) = none ∧
    send_task echoSkills "tid" nonDictRaw = HandlerOutcome.crashes :=
  ⟨rfl, by decide, rfl, rfl⟩

/-- C7 (amended): a well-formed envelope whose method differs from
tasks/send yields an RPC error envelope with code -32600.  A dict-shaped
body that is malformed or carries a wrong protocol version yields code
-32603 (the generic internal-error handler).  A body that is not a JSON
object makes the generic handler itself raise at data.get("id", ""), so the
handler crashes and no RPC envelope is produced.  In every case no task is
created. -/
theorem protocol_error_codes (skills : List (String × Except String Val))
    (freshId : String) (raw : Val)
    (h : parse_JSONRPCRequest raw = none ∨
      ∃ req, parse_JSONRPCRequest raw = some req ∧ req.method ≠ "tasks/send") :
    createdTaskOf (send_task skills freshId raw) = none ∧
    (match parse_JSONRPCRequest raw with
     | some _ => errorCodeOf (send_task skills freshId raw) = some (-32600)
     | none =>
         if isDictVal raw then
           errorCodeOf (send_task skills freshId raw) = some (-32603)
         else
           send_task skills freshId raw = HandlerOutcome.crashes) := by
  rcases h with hp | ⟨req, hp, hm⟩
  · cases raw with
    | vDict fields =>
        rw [hp]
        refine ⟨?_, ?_⟩
        · show createdTaskOf (send_task_dict skills freshId fields) = none
          rw [send_task_dict, hp]
          rfl
        · show errorCodeOf (send_task_dict skills freshId fields) = some (-32603)
          rw [send_task_dict, hp]
          rfl
    | vNull => exact ⟨rfl, rfl⟩
    | vBool b => exact ⟨rfl, rfl⟩
    | vInt n => exact ⟨rfl, rfl⟩
    | vStr s => exact ⟨rfl, rfl⟩
    | vList xs => exact ⟨rfl, rfl⟩
  · have hm' : (req.method != "tasks/send") = true := by
      simpa using hm
    cases raw with
    | vDict fields =>
        rw [hp]
        refine ⟨?_, ?_⟩
        · show createdTaskOf (send_task_dict skills freshId fields) = none
          rw [send_task_dict, hp]
          simp only [hm']
          rfl
        · show errorCodeOf (send_task_dict skills freshId fields) = some (-32600)
          rw [send_task_dict, hp]
          simp only [hm']
          rfl
    | vNull => simp [parse_JSONRPCRequest] at hp
    | vBool b => simp [parse_JSONRPCRequest] at hp
    | vInt n => simp [parse_JSONRPCRequest] at hp
    | vStr s => simp [parse_JSONRPCRequest] at hp
    | vList xs => simp [parse_JSONRPCRequest] at hp

/-- C7 witness: instantiation at the wrong-version request, at a well-formed
request with a foreign method, and at a non-dict body. -/
theorem protocol_error_codes_witness :
    (createdTaskOf (send_task echoSkills "tid" wrongVersionRaw) = none ∧
     (match parse_JSONRPCRequest wrongVersionRaw with
      | some _ => errorCodeOf (send_task echoSkills "tid" wrongVersionRaw) = some (-32600)
      | none =>
          if isDictVal wrongVersionRaw then
            errorCodeOf (send_task echoSkills "tid" wrongVersionRaw) = some (-32603)
          else
            send_task echoSkills "tid" wrongVersionRaw = HandlerOutcome.crashes)) ∧
    (createdTaskOf (send_task echoSkills "tid" wrongMethodRaw) = none ∧
     (match parse_JSONRPCRequest wrongMethodRaw with
      | some _ => errorCodeOf (send_task echoSkills "tid" wrongMethodRaw) = some (-32600)
      | none =>
          if isDictVal wrongMethodRaw then
            errorCodeOf (send_task echoSkills "tid" wrongMethodRaw) = some (-32603)
          else
            send_task echoSkills "tid" wrongMethodRaw = HandlerOutcome.crashes)) ∧
    (createdTaskOf (send_task echoSkills "tid" nonDictRaw) = none ∧
     (match parse_JSONRPCRequest nonDictRaw with
      | some _ => errorCodeOf (send_task echoSkills "tid" nonDictRaw) = some (-32600)
      | none =>
          if isDictVal nonDictRaw then
            errorCodeOf (send_task echoSkills "tid" nonDictRaw) = some (-32603)
          else
            send_task echoSkills "tid" nonDictRaw = HandlerOutcome.crashes)) :=
  ⟨protocol_error_codes echoSkills "tid" wrongVersionRaw (Or.inl rfl),
   protocol_error_codes echoSkills "tid" wrongMethodRaw
     (Or.inr ⟨{ id := .str "y", method := "skills/search",
                params := { agentSkill := "echo", input := .vStr "hi" } },
       rfl, by decide⟩),
   protocol_error_codes echoSkills "tid" nonDictRaw (Or.inl rfl)⟩

lemma parse_some_fields (raw : Val) (req : ParsedReq)
    (hp : parse_JSONRPCRequest raw = some req) :
    ∃ fields, raw = Val.vDict fields := by
  cases raw with
  | vDict fields => exact ⟨fields, rfl⟩
  | vNull => simp [parse_JSONRPCRequest] at hp
  | vBool b => simp [parse_JSONRPCRequest] at hp
  | vInt n => simp [parse_JSONRPCRequest] at hp
  | vStr s => simp [parse_JSONRPCRequest] at hp
  | vList xs => simp [parse_JSONRPCRequest] at hp

/-- C8: a well-formed tasks/send request naming a resolvable skill makes the
handler respond (it does not crash) with HTTP 202.  The RPC result is
exactly the object with taskId equal to the created task's id and status
"accepted", the envelope id echoes the request id preserving its type
(reqIdVal keeps a string a string and an integer an integer), and a task is
created with that id. -/
theorem tasks_send_accepted_response (skills : List (String × Except String Val))
    (freshId : String) (raw : Val) (req : ParsedReq) (fn : Except String Val)
    (hp : parse_JSONRPCRequest raw = some req)
    (hm : req.method = "tasks/send")
    (hsk : skills.lookup req.params.agentSkill = some fn) :
    send_task skills freshId raw =
      HandlerOutcome.responds
        { response :=
            { status_code := 202,
              body := Val.vDict
                [("jsonrpc", Val.vStr "2.0"), ("id", reqIdVal req.id),
                 ("result", Val.vDict
                    [("taskId", Val.vStr freshId), ("status", Val.vStr "accepted")])] },
          createdTask := some freshId } := by
  obtain ⟨fields, hraw⟩ := parse_some_fields raw req hp
  subst hraw
  show send_task_dict skills freshId fields = _
  rw [send_task_dict, hp]
  simp only [hm, bne_self_eq_false, Bool.false_eq_true, if_false, hsk]

/- A well-formed tasks/send request with an integer id. -/
def goodRaw : Val :=
  Val.vDict
    [("jsonrpc", Val.vStr "2.0"), ("id", Val.vInt 7),
     ("method", Val.vStr "tasks/send"),
     ("params", Val.vDict
        [("agentSkill", Val.vStr "echo"), ("input", Val.vStr "hi")])]

/-- C8 witness: a concrete well-formed request with integer id 7 resolving
the echo skill. -/
theorem tasks_send_accepted_response_witness :
    send_task echoSkills "tid-1" goodRaw =
      HandlerOutcome.responds
        { response :=
            { status_code := 202,
              body := Val.vDict
                [("jsonrpc", Val.vStr "2.0"), ("id", reqIdVal (.int 7)),
                 ("result", Val.vDict
                    [("taskId", Val.vStr "tid-1"), ("status", Val.vStr "accepted")])] },
          createdTask := some "tid-1" } :=
  tasks_send_accepted_response echoSkills "tid-1" goodRaw
    { id := .int 7, method := "tasks/send",
      params := { agentSkill := "echo", input := .vStr "hi" } }
    (Except.ok (Val.vStr "hi")) rfl rfl rfl

end A2A
